import Mathlib

/-!
Verification development for the `uc_sso` repository (a CAS-style SSO client
for UC Chile), shallowly embedded in Lean 4.

Source files modelled here:
  * `uc_sso/parsers.py`   — `SSOHandshakeParser`, `SSOUserInfoParser`
  * `uc_sso/main.py`      — `_get_initial_handshake`, `get_user_info`, `get_ticket`
  * `uc_sso_helper/main.py` — the near-identical historical variant

Modelling conventions:
  * Python strings are Lean `String`s; character-level reasoning goes through
    `String.data : List Char`.
  * Python's `html.parser.HTMLParser` (standard library) is external: an HTML
    document is modelled as the list of start-tag events the tokenizer delivers
    to `handle_starttag`.  Following the documented interface, an attribute
    without a value is reported with value `none`.
  * `html_table_parser.HTMLTableParser` (third-party) is external: its output
    `self.tables` is modelled as an input `List (List Row)`; a cell is either
    plain text (`Cell.str`) or something else (`Cell.other`), so that the
    `isinstance(row[0], str)` check in the source is meaningful.
  * HTTP transport (`requests`) is external: responses are passed in
    explicitly as `HTTPResponse` values.
  * Python exceptions are the `PyErr` inductive; fallible code returns
    `Except PyErr _`.
-/

/-- Python exceptions raised (or raisable) by the code under verification. -/
inductive PyErr where
  /-- `ValueError(msg)` -/
  | valueError (msg : String)
  /-- `uc_sso.main.LoginFailed(msg)` -/
  | loginFailed (msg : String)
  /-- `uc_sso.main.SSOProtocolError(msg)` -/
  | ssoProtocolError (msg : String)
  /-- `AssertionError(msg)` from a failed `assert` -/
  | assertionError (msg : String)
  /-- `ConnectionError(msg)` -/
  | connectionError (msg : String)
  /-- `TypeError`, e.g. `"alert-success" in None` -/
  | typeError
  /-- `AttributeError`, e.g. calling `.lstrip` on a non-string cell -/
  | attributeError
  /-- `IndexError`, e.g. `[][0]` or `xs.split(sep)[1]` with no separator present -/
  | indexError
deriving DecidableEq

/-! ## Python string primitives -/

/-- Boolean list-prefix test (used to locate separator occurrences). -/
def prefixB : List Char → List Char → Bool
  | [], _ => true
  | _ :: _, [] => false
  | a :: as, b :: bs => if a = b then prefixB as bs else false

/-- Python's `needle in hay` substring test, on character lists. -/
def isSubstr (needle : List Char) : List Char → Bool
  | [] => prefixB needle []
  | c :: cs => prefixB needle (c :: cs) || isSubstr needle cs

/-- Fuel-driven worker for Python's `str.split(sep)` with a non-empty `sep`:
splits at each leftmost non-overlapping occurrence of `sep`.  The fuel is
only there to make the recursion structural; `pySplitL` always supplies
enough fuel (`s.length`). -/
def pySplitAux (sep : List Char) : Nat → List Char → List (List Char)
  | _, [] => [[]]
  | 0, s => [s]
  | n + 1, c :: cs =>
    if sep ≠ [] ∧ prefixB sep (c :: cs) = true then
      [] :: pySplitAux sep n (cs.drop (sep.length - 1))
    else
      match pySplitAux sep n cs with
      | [] => [[c]]
      | h :: t => (c :: h) :: t

/-- Python's `str.split(sep)` (non-empty `sep`) on character lists. -/
def pySplitL (sep s : List Char) : List (List Char) :=
  pySplitAux sep s.length s

/-- Python's `s.split(sep)` for a non-empty literal separator. -/
def pySplit (s sep : String) : List String :=
  (pySplitL sep.data s.data).map fun l => String.mk l

/-- Python's `s.lstrip(chars)`: removes every leading character that is a
member of `chars`. -/
def pyLstrip (s chars : String) : String :=
  String.mk (s.data.dropWhile fun c => chars.data.contains c)

/-- Python's `s.rstrip(chars)`: removes every trailing character that is a
member of `chars`. -/
def pyRstrip (s chars : String) : String :=
  String.mk ((s.data.reverse.dropWhile fun c => chars.data.contains c).reverse)

/-- Python's `s.strip()` (no argument): removes leading and trailing
whitespace. -/
def pyStrip (s : String) : String :=
  String.mk ((s.data.dropWhile Char.isWhitespace).reverse.dropWhile
    Char.isWhitespace).reverse

/-! ## HTML start-tag events

Python's `html.parser.HTMLParser` reports each start tag to
`handle_starttag(tag, attrs)` where `attrs` is a list of `(name, value)`
pairs and `value` is `None` for an attribute with no value. -/

/-- One `handle_starttag` event. -/
structure StartTag where
  tag : String
  attrs : List (String × Option String)
deriving DecidableEq

/-! ## `SSOHandshakeParser` (uc_sso/parsers.py lines 7-21; identical class in
uc_sso_helper/main.py lines 32-45)

```
def handle_starttag(self, tag, attrs):
    if tag == "input":
        if ("name", "execution") in attrs:
            for name, value in attrs:
                if name == "value":
                    self.execution = value
                    break
```
-/

/-- First `("value", v)` pair of an attribute list, if any (the inner
`for ... break` loop). -/
def firstValueAttr : List (String × Option String) → Option (Option String)
  | [] => none
  | (n, v) :: rest => if n = "value" then some v else firstValueAttr rest

/-- `handle_starttag` of `SSOHandshakeParser`, acting on the stored
`self.execution`. -/
def hsStep (st : Option String) (t : StartTag) : Option String :=
  if t.tag = "input" ∧ ("name", some "execution") ∈ t.attrs then
    match firstValueAttr t.attrs with
    | some v => v
    | none => st
  else st

/-- Feeding a whole document to `SSOHandshakeParser` and reading
`parser.execution` afterwards. -/
def handshakeFieldScan (events : List StartTag) : Option String :=
  events.foldl hsStep none

/-! ## `SSOUserInfoParser.handle_starttag` — the success marker

uc_sso/parsers.py lines 35-41:
```
if tag == "div":
    for name, value in attrs:
        if name == "class" and "alert-success" in value:
            self.login_status = "success"
            break
```
Note `"alert-success" in value` raises `TypeError` when `value` is `None`
(a valueless `class` attribute). -/

/-- The `login_status` field. -/
inductive LoginStatus where
  | success
  | failure
deriving DecidableEq

/-- The attribute loop of `handle_starttag` on one `div` tag: `ok true` if the
loop set `login_status` (and broke), `ok false` if it fell through,
`error typeError` on `"alert-success" in None`. -/
def divClassHit : List (String × Option String) → Except PyErr Bool
  | [] => .ok false
  | (n, v) :: rest =>
    if n = "class" then
      match v with
      | none => .error .typeError
      | some s => if isSubstr "alert-success".data s.data then .ok true else divClassHit rest
    else divClassHit rest

/-- `handle_starttag` of `SSOUserInfoParser` acting on `login_status`. -/
def statusStep (st : LoginStatus) (t : StartTag) : Except PyErr LoginStatus :=
  if t.tag = "div" then
    match divClassHit t.attrs with
    | .error e => .error e
    | .ok true => .ok .success
    | .ok false => .ok st
  else .ok st

/-- Worker for the whole-document status scan. -/
def userInfoStatusScanAux : LoginStatus → List StartTag → Except PyErr LoginStatus
  | st, [] => .ok st
  | st, t :: ts =>
    match statusStep st t with
    | .error e => .error e
    | .ok st' => userInfoStatusScanAux st' ts

/-- `login_status` after feeding a whole document to `SSOUserInfoParser`
(uc_sso variant: substring class match). -/
def userInfoStatusScan (events : List StartTag) : Except PyErr LoginStatus :=
  userInfoStatusScanAux .failure events

/-! uc_sso_helper/main.py lines 55-62 differ: the class check is
`value == "alert alert-success"` (exact equality).  `None == "..."` is `False`
in Python, so this variant never raises. -/

/-- The attribute loop of the helper variant's `handle_starttag`. -/
def divClassHitHelper : List (String × Option String) → Bool
  | [] => false
  | (n, v) :: rest =>
    if n = "class" ∧ v = some "alert alert-success" then true
    else divClassHitHelper rest

/-- `login_status` after feeding a whole document to the helper variant's
`SSOUserInfoParser`. -/
def userInfoStatusScanHelper (events : List StartTag) : LoginStatus :=
  events.foldl
    (fun st t => if t.tag = "div" ∧ divClassHitHelper t.attrs = true then .success else st)
    .failure

/-! ## The attribute table and the normalizer (`SSOUserInfoParser.feed`) -/

/-- A table cell as produced by the external `HTMLTableParser`: plain text or
something that is not a `str` (so that `isinstance(row[0], str)` can fail). -/
inductive Cell where
  | str (s : String)
  | other
deriving DecidableEq

/-- A table row. -/
abbrev Row : Type := List Cell

/-- A normalized attribute value: Python stores either a single string or a
list of strings in the attributes dict. -/
inductive AttrVal where
  | single (s : String)
  | seq (l : List String)
deriving DecidableEq

/-- The attributes dict, as an association list where the most recent
assignment is consed at the front (so `assocFind` sees the latest value,
matching Python dict assignment). -/
abbrev Attrs : Type := List (String × AttrVal)

/-- Lookup in an association list: first (= most recently written) entry wins. -/
def assocFind {α : Type} (k : String) : List (String × α) → Option α
  | [] => none
  | (k', v) :: rest => if k' = k then some v else assocFind k rest

/-- uc_sso/parsers.py line 57:
`value_seq = row[1].lstrip("[").rstrip("]").split(", ")`. -/
def parseSeq (raw : String) : List String :=
  pySplit (pyRstrip (pyLstrip raw "[") "]") ", "

/-- The `elif` chain of `SSOUserInfoParser.feed` (uc_sso/parsers.py lines
59-102) applied to one trimmed attribute name and its `value_seq`: the
key/value assigned to `self.attributes`, or `none` when the row is skipped.
`value_seq[0]` is written `vs.headD ""`; this is faithful because
`pySplit` never returns `[]` (see `pySplitL_ne_nil`). -/
def regularizeRow (name : String) (vs : List String) : Option (String × AttrVal) :=
  let v0 := vs.headD ""
  if name = "displayName" then some ("full_name", .single v0)
  else if name = "givenName" then some ("given_name", .single v0)
  else if name = "sn" then some ("first_last_name", .single v0)
  else if name = "apellidomaterno" then some ("second_last_name", .single v0)
  else if name = "apellidos" then some ("surnames", .single v0)
  else if name = "uid" then some ("username", .single v0)
  else if name = "mail" then some ("email", .single v0)
  else if name = "mailAlternateAddress" then some ("alternate_emails", .seq vs)
  else if name = "businessCategory" then some ("user_category", .single v0)
  else if name = "employeeType" then some ("user_type", .single v0)
  else if name = "tipocorreo" then some ("email_type", .single v0)
  else if name = "carlicense" then some ("run", .single (pyLstrip v0 "0"))
  else if name = "UDCIdentifier" then some ("udc_id", .single v0)
  else if name = "eduPersonScopedAffiliation" ∨ name = "cn" ∨ name = "organizationName" then none
  else if vs.length = 1 ∧ pyStrip v0 = "" then none
  else if vs.length = 1 then some (name, .single v0)
  else if vs.length > 1 then some (name, .seq vs)
  else none

/-- The `elif` chain of the helper variant (uc_sso_helper/main.py lines
78-118).  It is identical except that it has no `mail` branch. -/
def regularizeRowHelper (name : String) (vs : List String) : Option (String × AttrVal) :=
  let v0 := vs.headD ""
  if name = "displayName" then some ("full_name", .single v0)
  else if name = "givenName" then some ("given_name", .single v0)
  else if name = "sn" then some ("first_last_name", .single v0)
  else if name = "apellidomaterno" then some ("second_last_name", .single v0)
  else if name = "apellidos" then some ("surnames", .single v0)
  else if name = "uid" then some ("username", .single v0)
  else if name = "mailAlternateAddress" then some ("alternate_emails", .seq vs)
  else if name = "businessCategory" then some ("user_category", .single v0)
  else if name = "employeeType" then some ("user_type", .single v0)
  else if name = "tipocorreo" then some ("email_type", .single v0)
  else if name = "carlicense" then some ("run", .single (pyLstrip v0 "0"))
  else if name = "UDCIdentifier" then some ("udc_id", .single v0)
  else if name = "eduPersonScopedAffiliation" ∨ name = "cn" ∨ name = "organizationName" then none
  else if vs.length = 1 ∧ pyStrip v0 = "" then none
  else if vs.length = 1 then some (name, .single v0)
  else if vs.length > 1 then some (name, .seq vs)
  else none

/-- One iteration of the `for row in self.tables[0][1:]` loop (uc_sso variant):
the two `assert`s, the `value_seq` computation, and the `elif` chain.
A non-string second cell makes `.lstrip` raise `AttributeError`. -/
def normStep (m : Attrs) (r : Row) : Except PyErr Attrs :=
  match r with
  | [c0, c1] =>
    match c0 with
    | Cell.other => .error (.assertionError "Abnormal row name found in attribute table.")
    | Cell.str a =>
      match c1 with
      | Cell.other => .error .attributeError
      | Cell.str b =>
        .ok (match regularizeRow (pyStrip a) (parseSeq b) with
          | some kv => kv :: m
          | none => m)
  | _ => .error (.assertionError "Abnormal row length found in attribute table.")

/-- One loop iteration of the helper variant. -/
def normStepHelper (m : Attrs) (r : Row) : Except PyErr Attrs :=
  match r with
  | [c0, c1] =>
    match c0 with
    | Cell.other => .error (.assertionError "Abnormal row name found in attribute table.")
    | Cell.str a =>
      match c1 with
      | Cell.other => .error .attributeError
      | Cell.str b =>
        .ok (match regularizeRowHelper (pyStrip a) (parseSeq b) with
          | some kv => kv :: m
          | none => m)
  | _ => .error (.assertionError "Abnormal row length found in attribute table.")

/-- The whole row loop (uc_sso variant), threading the attributes dict. -/
def normRows : List Row → Attrs → Except PyErr Attrs
  | [], m => .ok m
  | r :: rs, m =>
    match normStep m r with
    | .error e => .error e
    | .ok m' => normRows rs m'

/-- The whole row loop of the helper variant. -/
def normRowsHelper : List Row → Attrs → Except PyErr Attrs
  | [], m => .ok m
  | r :: rs, m =>
    match normStepHelper m r with
    | .error e => .error e
    | .ok m' => normRowsHelper rs m'

/-- The post-`super().feed` part of `SSOUserInfoParser.feed` (uc_sso variant,
parsers.py lines 47-102), as a function of the final `login_status` and the
`self.tables` produced by the external table parser.  Note that with
`self.tables == []`, `assert self.tables[0]` raises `IndexError` from the
subscript before the assertion itself can fire; the assertion fires only when
a first table exists but is empty. -/
def feedPost (st : LoginStatus) (tables : List (List Row)) : Except PyErr (Option Attrs) :=
  match st with
  | .failure => .ok none
  | .success =>
    match tables with
    | [] => .error .indexError
    | t0 :: _ =>
      match t0 with
      | [] => .error (.assertionError "Login successfull, but attribute table not found.")
      | _ :: rest =>
        match normRows rest [] with
        | .error e => .error e
        | .ok m => .ok (some m)

/-- The post-`super().feed` part of the helper variant's `feed`
(uc_sso_helper/main.py lines 64-118). -/
def feedPostHelper (st : LoginStatus) (tables : List (List Row)) : Except PyErr (Option Attrs) :=
  match st with
  | .failure => .ok none
  | .success =>
    match tables with
    | [] => .error .indexError
    | t0 :: _ =>
      match t0 with
      | [] => .error (.assertionError "Login successfull, but attribute table not found.")
      | _ :: rest =>
        match normRowsHelper rest [] with
        | .error e => .error e
        | .ok m => .ok (some m)

/-! ## The protocol client (uc_sso/main.py) -/

/-- The slice of a `requests` response that the code consumes. -/
structure HTTPResponse where
  status_code : Nat
  is_redirect : Bool
  location : Option String
  cookies : List (String × String)
  /-- start-tag events of the response body, as delivered by `html.parser` -/
  bodyTags : List StartTag
deriving DecidableEq

/-- `InitialHandshakeData` (uc_sso/main.py lines 24-28). -/
structure InitialHandshakeData where
  ssosaf : String
  execution : String
deriving DecidableEq

/-- `ServiceTicket` (uc_sso/main.py lines 31-35). -/
structure ServiceTicket where
  value : String
  service_url : String
deriving DecidableEq

/-- `_get_initial_handshake` (uc_sso/main.py lines 39-58), as a function of
the response to `get(endpoint)`. -/
def _get_initial_handshake (resp : HTTPResponse) : Except PyErr InitialHandshakeData :=
  match assocFind "ssosaf" resp.cookies with
  | none => .error (.valueError "Could not find ssosaf cookie.")
  | some ssosaf =>
    match handshakeFieldScan resp.bodyTags with
    | none => .error (.valueError "Could not find execution parameter in response.")
    | some execution => .ok ⟨ssosaf, execution⟩

/-- `get_user_info` (uc_sso/main.py lines 61-115) after the POST: a function
of the response status code, the body's start-tag events, and the tables the
external table parser extracts from the same body. -/
def get_user_info (status_code : Nat) (events : List StartTag) (tables : List (List Row)) :
    Except PyErr (Option Attrs) :=
  if status_code ≠ 200 then
    .error (.ssoProtocolError
      ("SSO didn't respond to information request as expected (HTTP " ++
        toString status_code ++ ")."))
  else
    match userInfoStatusScan events with
    | .error e => .error e
    | .ok st =>
      match feedPost st tables with
      | .error e => .error e
      | .ok attrs =>
        match st with
        | .failure => .error (.loginFailed "Invalid credentials.")
        | .success => .ok attrs

/-- uc_sso/main.py line 162: `ticket = ticketed_service_url.split("ticket=")[1]`.
A missing index raises `IndexError`. -/
def extractTicketValue (url : String) : Except PyErr String :=
  match (pySplit url "ticket=")[1]? with
  | some t => .ok t
  | none => .error .indexError

/-- `get_ticket` (uc_sso/main.py lines 118-163), as a function of the three
responses observed: the initial GET of the service URL, the handshake GET of
the SSO redirect URL, and the credential POST.  `assert sso_redirect_url`
fails on `None` and on the empty string (falsy); the later
`assert ticketed_service_url is not None` only fails on `None`. -/
def get_ticket (serviceResp hsResp loginResp : HTTPResponse) : Except PyErr ServiceTicket :=
  if ¬ (serviceResp.status_code = 200 ∨ serviceResp.status_code = 302) then
    .error (.connectionError
      ("Could not reach service. Status code: " ++ toString serviceResp.status_code))
  else if serviceResp.is_redirect = false then
    .error (.ssoProtocolError "Service doesn't seem to be SSO protected.")
  else
    match serviceResp.location with
    | none => .error (.assertionError "Could not find SSO redirect URL.")
    | some redirectURL =>
      if redirectURL = "" then .error (.assertionError "Could not find SSO redirect URL.")
      else
        match _get_initial_handshake hsResp with
        | .error e => .error e
        | .ok _hs =>
          if loginResp.is_redirect = false then
            .error (.ssoProtocolError
              ("The second-step handshake didn't present a redirect (HTTP " ++
                toString loginResp.status_code ++ ")."))
          else
            match loginResp.location with
            | none => .error (.assertionError "Could not get ticketed service url.")
            | some url =>
              match extractTicketValue url with
              | .error e => .error e
              | .ok t => .ok ⟨t, url⟩

/-! ## Spec-side definitions

These follow the words of the specification (spec.md), not the source; they
exist to be compared with the source-derived definitions above. -/

/-- The single-value rename rows of the spec's section 4.3 table, as data. -/
def renameTable : List (String × String) :=
  [("displayName", "full_name"),
   ("givenName", "given_name"),
   ("sn", "first_last_name"),
   ("apellidomaterno", "second_last_name"),
   ("apellidos", "surnames"),
   ("uid", "username"),
   ("mail", "email"),
   ("businessCategory", "user_category"),
   ("employeeType", "user_type"),
   ("tipocorreo", "email_type"),
   ("UDCIdentifier", "udc_id")]

/-- Lookup of a raw key in the rename table. -/
def renameLookup (name : String) : List (String × String) → Option String
  | [] => none
  | (raw, norm) :: rest => if name = raw then some norm else renameLookup name rest

/-- Modelled from the spec, section 4.3: the per-row transform, with the
rename table as a static lookup structure, the denylist, the two special
transforms (`mailAlternateAddress` keeps the full sequence, `carlicense`
strips leading zeros), and the three fallback rows. -/
def specRow (name : String) (vs : List String) : Option (String × AttrVal) :=
  if name = "eduPersonScopedAffiliation" ∨ name = "cn" ∨ name = "organizationName" then none
  else
    match renameLookup name renameTable with
    | some k => some (k, .single (vs.headD ""))
    | none =>
      if name = "mailAlternateAddress" then some ("alternate_emails", .seq vs)
      else if name = "carlicense" then some ("run", .single (pyLstrip (vs.headD "") "0"))
      else if vs.length = 1 ∧ pyStrip (vs.headD "") = "" then none
      else if vs.length = 1 then some (name, .single (vs.headD ""))
      else if vs.length > 1 then some (name, .seq vs)
      else none

/-- Spec-side transform of a whole raw row (trim the name, parse the value as
a bracketed comma-space list, then apply the section 4.3 table). -/
def specRowOf (r : Row) : Option (String × AttrVal) :=
  match r with
  | [c0, c1] =>
    match c0 with
    | Cell.other => none
    | Cell.str a =>
      match c1 with
      | Cell.other => none
      | Cell.str b => specRow (pyStrip a) (parseSeq b)
  | _ => none

/-- Spec-side accumulation of the normalized mapping over the non-header rows. -/
def specBuildFrom : List Row → Attrs → Attrs
  | [], m => m
  | r :: rs, m =>
    specBuildFrom rs
      (match specRowOf r with
        | some kv => kv :: m
        | none => m)

/-- Spec-side normalized mapping of a row list. -/
def specBuild (rows : List Row) : Attrs :=
  specBuildFrom rows []

/-- Left-biased choice on options. -/
def orO {α : Type} : Option α → Option α → Option α
  | some v, _ => some v
  | none, b => b

/-- The value a given row contributes to normalized key `k`, if any
(spec-side derivation). -/
def rowHit (k : String) (r : Row) : Option AttrVal :=
  match specRowOf r with
  | some (k', v) => if k' = k then some v else none
  | none => none

/-- First row of a list that contributes to key `k`, and its value. -/
def firstHit (k : String) : List Row → Option AttrVal
  | [] => none
  | r :: rs => orO (rowHit k r) (firstHit k rs)

/-- The value of the last row (in table order) contributing to key `k`. -/
def lastWins (k : String) (rows : List Row) : Option AttrVal :=
  firstHit k rows.reverse

/-- Does this start tag match `("name", "execution")` on an `input`? -/
def isExecInputB (t : StartTag) : Bool :=
  decide (t.tag = "input" ∧ ("name", some "execution") ∈ t.attrs)

/-- Does the attribute list carry a `value` attribute (with or without a
value)? -/
def hasValueAttr : List (String × Option String) → Bool
  | [] => false
  | (n, _) :: rest => if n = "value" then true else hasValueAttr rest

/-- A matching `input` tag that carries a `value` attribute. -/
def carrierB (t : StartTag) : Bool :=
  isExecInputB t && hasValueAttr t.attrs

/-- The (possibly valueless) value of the first `value` attribute of a tag. -/
def valOfTag (t : StartTag) : Option String :=
  match firstValueAttr t.attrs with
  | some v => v
  | none => none

/-- Last element of a list, if any. -/
def lastOf {α : Type} : List α → Option α
  | [] => none
  | [a] => some a
  | _ :: b :: rest => lastOf (b :: rest)

/-- The value of an optional carrier tag, with a default. -/
def optValOf (o : Option StartTag) (st : Option String) : Option String :=
  match o with
  | some t => valOfTag t
  | none => st

/-- Spec-side description of the form-field extractor's result: the value
attribute of the last matching `input` tag that carries a `value` attribute. -/
def lastExecValue (events : List StartTag) : Option String :=
  optValOf (lastOf (events.filter carrierB)) none

/-- No `div` start tag has a class attribute whose value contains the
substring `alert-success`. -/
def noSuccessDivB (events : List StartTag) : Bool :=
  events.all fun t =>
    !(t.tag == "div") ||
      t.attrs.all fun p =>
        match p.2 with
        | some v => !(p.1 == "class" && isSubstr "alert-success".data v.data)
        | none => true

/-- Every class attribute of a `div` start tag carries a value. -/
def allClassValuedB (events : List StartTag) : Bool :=
  events.all fun t =>
    !(t.tag == "div") || t.attrs.all fun p => !(p.1 == "class") || p.2.isSome

/-- A row is not a well-formed two-string-cell row whose trimmed name is
`mail`. -/
def noMailRowB (r : Row) : Bool :=
  match r with
  | [c0, c1] =>
    match c0 with
    | Cell.other => true
    | Cell.str a =>
      match c1 with
      | Cell.other => true
      | Cell.str _ => !(pyStrip a == "mail")
  | _ => true

/-- The first extracted table has no well-formed non-header row named `mail`. -/
def noMailTableB (tables : List (List Row)) : Bool :=
  match tables with
  | [] => true
  | t0 :: _ => (t0.drop 1).all noMailRowB

/-- A well-formed key/value row: exactly two cells, both plain text. -/
def wfRowB (r : Row) : Bool :=
  match r with
  | [c0, c1] =>
    match c0 with
    | Cell.other => false
    | Cell.str _ =>
      match c1 with
      | Cell.other => false
      | Cell.str _ => true
  | _ => false

/-- All rows are well-formed key/value rows. -/
def wfRowsB (rows : List Row) : Bool :=
  rows.all wfRowB

/-- Modelled from the claim's words (claim C2): strip exactly one leading `[`
and exactly one trailing `]`, then split on `", "`. -/
def stripOneParse (raw : String) : List String :=
  let d1 := if raw.data.head? = some '[' then raw.data.tail else raw.data
  let d2 := if d1.getLast? = some ']' then d1.dropLast else d1
  (pySplitL ", ".data d2).map fun l => String.mk l

deriving instance DecidableEq for Except

/-! ## Lemmas about the Python string primitives -/

/-- A list is a Boolean prefix of itself followed by anything. -/
theorem prefixB_append (l r : List Char) : prefixB l (l ++ r) = true := by
  induction l with
  | nil => rfl
  | cons a as ih => simp [prefixB, ih]

/-- Unfolding of `isSubstr` on a cons. -/
theorem isSubstr_cons (needle : List Char) (c : Char) (cs : List Char) :
    isSubstr needle (c :: cs) = (prefixB needle (c :: cs) || isSubstr needle cs) := rfl

/-- `pySplitAux` never returns the empty list. -/
theorem pySplitAux_ne_nil (sep : List Char) (fuel : Nat) (s : List Char) :
    pySplitAux sep fuel s ≠ [] := by
  match fuel, s with
  | _, [] => simp [pySplitAux]
  | 0, _ :: _ => simp [pySplitAux]
  | n + 1, c :: cs =>
    rw [pySplitAux]
    split
    · simp
    · split <;> simp

/-- `pySplit` never returns the empty list (so `value_seq[0]` cannot raise). -/
theorem pySplit_ne_nil (s sep : String) : pySplit s sep ≠ [] := by
  have h := pySplitAux_ne_nil sep.data s.data.length s.data
  simp [pySplit, pySplitL]
  intro hc
  exact h hc

/-- One extra unit of fuel changes nothing once the fuel covers the input. -/
theorem pySplitAux_fuel_succ (sep : List Char) :
    ∀ (fuel : Nat) (s : List Char), s.length ≤ fuel →
      pySplitAux sep (fuel + 1) s = pySplitAux sep fuel s := by
  intro fuel
  induction fuel with
  | zero =>
    intro s hs
    have : s = [] := List.length_eq_zero.mp (Nat.le_zero.mp hs)
    subst this
    rfl
  | succ n ih =>
    intro s hs
    match s with
    | [] => rfl
    | c :: cs =>
      have hcs : cs.length ≤ n := by
        have := List.length_cons c cs ▸ hs
        omega
      have hd : (cs.drop (sep.length - 1)).length ≤ n := by
        have := List.length_drop (sep.length - 1) cs
        omega
      rw [pySplitAux, pySplitAux]
      split
      · rw [ih _ hd]
      · rw [ih _ hcs]

/-- Any sufficient fuel computes `pySplitL`. -/
theorem pySplitAux_fuel_ge (sep : List Char) :
    ∀ (k fuel : Nat) (s : List Char), fuel = s.length + k →
      pySplitAux sep fuel s = pySplitL sep s := by
  intro k
  induction k with
  | zero =>
    intro fuel s h
    simp [pySplitL, h]
  | succ n ih =>
    intro fuel s h
    have h1 : fuel = (s.length + n) + 1 := by omega
    subst h1
    rw [pySplitAux_fuel_succ sep (s.length + n) s (by omega)]
    exact ih _ s rfl

/-- Fuel version restated with an inequality. -/
theorem pySplitAux_eq_splitL (sep : List Char) (fuel : Nat) (s : List Char)
    (h : s.length ≤ fuel) : pySplitAux sep fuel s = pySplitL sep s :=
  pySplitAux_fuel_ge sep (fuel - s.length) fuel s (by omega)

/-- When the separator occurs nowhere in the input, Python's split returns the
whole input as a single chunk. -/
theorem pySplitAux_no_occ (sep : List Char) :
    ∀ (fuel : Nat) (s : List Char), isSubstr sep s = false →
      pySplitAux sep fuel s = [s] := by
  intro fuel
  induction fuel with
  | zero =>
    intro s hs
    match s with
    | [] => rfl
    | c :: cs => rfl
  | succ n ih =>
    intro s hs
    match s with
    | [] => rfl
    | c :: cs =>
      rw [isSubstr_cons] at hs
      simp only [Bool.or_eq_false_iff] at hs
      obtain ⟨hp, ht⟩ := hs
      rw [pySplitAux]
      split
      next h => exact absurd h.2 (by simp [hp])
      next _ => rw [ih cs ht]

/-- `pySplitL` with no occurrence of the separator. -/
theorem pySplitL_no_occ (sep s : List Char) (h : isSubstr sep s = false) :
    pySplitL sep s = [s] :=
  pySplitAux_no_occ sep s.length s h

/-- Splitting at the leftmost occurrence of the separator: if no occurrence
starts strictly inside `pre`, Python's split cuts exactly after `pre`. -/
theorem pySplitL_cut (sep : List Char) (hsep : sep ≠ []) :
    ∀ (pre post : List Char),
      (∀ i, i < pre.length → prefixB sep ((pre ++ sep ++ post).drop i) = false) →
      pySplitL sep (pre ++ sep ++ post) = pre :: pySplitL sep post := by
  intro pre
  induction pre with
  | nil =>
    intro post _
    simp only [List.nil_append]
    match hsepm : sep, hsep with
    | c :: stail, _ =>
      rw [pySplitL]
      simp only [List.cons_append, List.length_cons]
      rw [pySplitAux]
      split
      next _ =>
        have hdrop : (stail ++ post).drop ((c :: stail).length - 1) = post := by
          simp only [List.length_cons, Nat.add_sub_cancel]
          exact List.drop_left stail post
        have hfuel : post.length ≤ (stail ++ post).length := by
          simp
        rw [hdrop, pySplitAux_eq_splitL _ _ _ hfuel]
      next h =>
        exact absurd ⟨by simp, by simpa using prefixB_append (c :: stail) post⟩ h
  | cons c pre' ih =>
    intro post hocc
    have h0 : prefixB sep ((c :: pre') ++ sep ++ post) = false := by
      have := hocc 0 (by simp)
      simpa using this
    have hocc' : ∀ i, i < pre'.length →
        prefixB sep ((pre' ++ sep ++ post).drop i) = false := by
      intro i hi
      have := hocc (i + 1) (by simp; omega)
      simpa using this
    have hlen' : ((c :: pre') ++ sep ++ post).length =
        ((pre' ++ sep ++ post).length) + 1 := by simp
    rw [pySplitL, hlen']
    simp only [List.cons_append]
    rw [pySplitAux]
    split
    next h => exact absurd h.2 (by simpa using h0)
    next _ =>
      rw [pySplitAux_eq_splitL _ _ _ (by omega)]
      rw [ih post hocc']

/-- When the separator occurs somewhere, Python's split has at least two
chunks (so index `[1]` succeeds). -/
theorem pySplitAux_two_of_occ (sep : List Char) (hsep : sep ≠ []) :
    ∀ (fuel : Nat) (s : List Char), s.length ≤ fuel → isSubstr sep s = true →
      2 ≤ (pySplitAux sep fuel s).length := by
  intro fuel
  induction fuel with
  | zero =>
    intro s hlen hocc
    have : s = [] := List.length_eq_zero.mp (Nat.le_zero.mp hlen)
    subst this
    match hsepm : sep, hsep with
    | c :: stail, _ => simp [isSubstr, prefixB] at hocc
  | succ n ih =>
    intro s hlen hocc
    match s with
    | [] =>
      match hsepm : sep, hsep with
      | c :: stail, _ => simp [isSubstr, prefixB] at hocc
    | c :: cs =>
      rw [pySplitAux]
      split
      next _ =>
        have hne := pySplitAux_ne_nil sep n (cs.drop (sep.length - 1))
        match hm : pySplitAux sep n (cs.drop (sep.length - 1)), hne with
        | x :: xs, _ => simp
      next h =>
        have hp : prefixB sep (c :: cs) = false := by
          by_contra hc
          exact h ⟨hsep, by simpa using hc⟩
        rw [isSubstr_cons, hp] at hocc
        simp only [Bool.false_or] at hocc
        have hcs : cs.length ≤ n := by
          have := List.length_cons c cs ▸ hlen
          omega
        have h2 := ih cs hcs hocc
        match hm : pySplitAux sep n cs, h2 with
        | x :: y :: ys, _ => simp
        | [x], h2 => simp at h2
        | [], h2 => simp at h2

/-- Dropping a satisfying prefix of replicated characters. -/
theorem dropWhile_replicate_append (p : Char → Bool) (c : Char) (hc : p c = true) :
    ∀ (n : Nat) (l : List Char),
      (List.replicate n c ++ l).dropWhile p = l.dropWhile p := by
  intro n
  induction n with
  | zero => intro l; rfl
  | succ k ih =>
    intro l
    simp only [List.replicate_succ, List.cons_append, List.dropWhile_cons, hc, if_true]
    exact ih l

/-- `dropWhile` is the identity when the head (if any) fails the predicate. -/
theorem dropWhile_head_false (p : Char → Bool) (l : List Char)
    (h : ∀ c, l.head? = some c → p c = false) : l.dropWhile p = l := by
  cases l with
  | nil => rfl
  | cons a t => simp [List.dropWhile_cons, h a rfl]

/-! ## The normalizer: code-side chain versus spec-side table -/

/-- The `elif` chain of the source equals the spec's declarative table. -/
theorem regRow_eq_specRow (name : String) (vs : List String) :
    regularizeRow name vs = specRow name vs := by
  by_cases h1 : name = "displayName"
  · subst h1
    simp [regularizeRow, specRow, renameLookup, renameTable]
  by_cases h2 : name = "givenName"
  · subst h2
    simp [regularizeRow, specRow, renameLookup, renameTable]
  by_cases h3 : name = "sn"
  · subst h3
    simp [regularizeRow, specRow, renameLookup, renameTable]
  by_cases h4 : name = "apellidomaterno"
  · subst h4
    simp [regularizeRow, specRow, renameLookup, renameTable]
  by_cases h5 : name = "apellidos"
  · subst h5
    simp [regularizeRow, specRow, renameLookup, renameTable]
  by_cases h6 : name = "uid"
  · subst h6
    simp [regularizeRow, specRow, renameLookup, renameTable]
  by_cases h7 : name = "mail"
  · subst h7
    simp [regularizeRow, specRow, renameLookup, renameTable]
  by_cases h8 : name = "mailAlternateAddress"
  · subst h8
    simp [regularizeRow, specRow, renameLookup, renameTable]
  by_cases h9 : name = "businessCategory"
  · subst h9
    simp [regularizeRow, specRow, renameLookup, renameTable]
  by_cases h10 : name = "employeeType"
  · subst h10
    simp [regularizeRow, specRow, renameLookup, renameTable]
  by_cases h11 : name = "tipocorreo"
  · subst h11
    simp [regularizeRow, specRow, renameLookup, renameTable]
  by_cases h12 : name = "carlicense"
  · subst h12
    simp [regularizeRow, specRow, renameLookup, renameTable]
  by_cases h13 : name = "UDCIdentifier"
  · subst h13
    simp [regularizeRow, specRow, renameLookup, renameTable]
  by_cases h14 : name = "eduPersonScopedAffiliation" ∨ name = "cn" ∨ name = "organizationName"
  · simp [regularizeRow, specRow, renameLookup, renameTable, h14,
      h1, h2, h3, h4, h5, h6, h7, h8, h9, h10, h11, h12, h13]
  · simp [regularizeRow, specRow, renameLookup, renameTable,
      h1, h2, h3, h4, h5, h6, h7, h8, h9, h10, h11, h12, h13, h14]

/-- Away from `mail`, the helper variant's chain agrees with the uc_sso one. -/
theorem regRowHelper_eq (name : String) (vs : List String) (h : name ≠ "mail") :
    regularizeRowHelper name vs = regularizeRow name vs := by
  by_cases h1 : name = "displayName"
  · subst h1
    simp [regularizeRowHelper, regularizeRow]
  by_cases h2 : name = "givenName"
  · subst h2
    simp [regularizeRowHelper, regularizeRow]
  by_cases h3 : name = "sn"
  · subst h3
    simp [regularizeRowHelper, regularizeRow]
  by_cases h4 : name = "apellidomaterno"
  · subst h4
    simp [regularizeRowHelper, regularizeRow]
  by_cases h5 : name = "apellidos"
  · subst h5
    simp [regularizeRowHelper, regularizeRow]
  by_cases h6 : name = "uid"
  · subst h6
    simp [regularizeRowHelper, regularizeRow]
  · simp [regularizeRowHelper, regularizeRow, h1, h2, h3, h4, h5, h6, h]

/-- No branch of the chain ever produces a denylisted key. -/
theorem regRow_not_deny (name : String) (vs : List String) (k : String) (v : AttrVal)
    (h : regularizeRow name vs = some (k, v))
    (hd : k = "eduPersonScopedAffiliation" ∨ k = "cn" ∨ k = "organizationName") : False := by
  by_cases h1 : name = "displayName"
  · subst h1
    simp only [regularizeRow, String.reduceEq, reduceIte] at h
    injection h with h'
    injection h' with hk hv
    subst hk
    simp at hd
  by_cases h2 : name = "givenName"
  · subst h2
    simp only [regularizeRow, String.reduceEq, reduceIte] at h
    injection h with h'
    injection h' with hk hv
    subst hk
    simp at hd
  by_cases h3 : name = "sn"
  · subst h3
    simp only [regularizeRow, String.reduceEq, reduceIte] at h
    injection h with h'
    injection h' with hk hv
    subst hk
    simp at hd
  by_cases h4 : name = "apellidomaterno"
  · subst h4
    simp only [regularizeRow, String.reduceEq, reduceIte] at h
    injection h with h'
    injection h' with hk hv
    subst hk
    simp at hd
  by_cases h5 : name = "apellidos"
  · subst h5
    simp only [regularizeRow, String.reduceEq, reduceIte] at h
    injection h with h'
    injection h' with hk hv
    subst hk
    simp at hd
  by_cases h6 : name = "uid"
  · subst h6
    simp only [regularizeRow, String.reduceEq, reduceIte] at h
    injection h with h'
    injection h' with hk hv
    subst hk
    simp at hd
  by_cases h7 : name = "mail"
  · subst h7
    simp only [regularizeRow, String.reduceEq, reduceIte] at h
    injection h with h'
    injection h' with hk hv
    subst hk
    simp at hd
  by_cases h8 : name = "mailAlternateAddress"
  · subst h8
    simp only [regularizeRow, String.reduceEq, reduceIte] at h
    injection h with h'
    injection h' with hk hv
    subst hk
    simp at hd
  by_cases h9 : name = "businessCategory"
  · subst h9
    simp only [regularizeRow, String.reduceEq, reduceIte] at h
    injection h with h'
    injection h' with hk hv
    subst hk
    simp at hd
  by_cases h10 : name = "employeeType"
  · subst h10
    simp only [regularizeRow, String.reduceEq, reduceIte] at h
    injection h with h'
    injection h' with hk hv
    subst hk
    simp at hd
  by_cases h11 : name = "tipocorreo"
  · subst h11
    simp only [regularizeRow, String.reduceEq, reduceIte] at h
    injection h with h'
    injection h' with hk hv
    subst hk
    simp at hd
  by_cases h12 : name = "carlicense"
  · subst h12
    simp only [regularizeRow, String.reduceEq, reduceIte] at h
    injection h with h'
    injection h' with hk hv
    subst hk
    simp at hd
  by_cases h13 : name = "UDCIdentifier"
  · subst h13
    simp only [regularizeRow, String.reduceEq, reduceIte] at h
    injection h with h'
    injection h' with hk hv
    subst hk
    simp at hd
  by_cases h14 : name = "eduPersonScopedAffiliation" ∨ name = "cn" ∨ name = "organizationName"
  · simp [regularizeRow, h1, h2, h3, h4, h5, h6, h7, h8, h9, h10, h11, h12, h13, h14] at h
  · simp only [regularizeRow, h1, h2, h3, h4, h5, h6, h7, h8, h9, h10, h11, h12, h13, h14, if_false, if_neg] at h
    split_ifs at h <;>
      first
        | exact Option.noConfusion h
        | (injection h with h'
           injection h' with hk hv
           subst hk
           exact h14 hd)

/-- Spec-side per-row transform never yields a denylisted key either. -/
theorem specRowOf_not_deny (r : Row) (k : String) (v : AttrVal)
    (h : specRowOf r = some (k, v))
    (hd : k = "eduPersonScopedAffiliation" ∨ k = "cn" ∨ k = "organizationName") : False := by
  match r, h with
  | [], h => exact Option.noConfusion h
  | [_], h => exact Option.noConfusion h
  | _ :: _ :: _ :: _, h => exact Option.noConfusion h
  | [c0, c1], h =>
    match c0, h with
    | Cell.other, h => exact Option.noConfusion h
    | Cell.str a, h =>
      match c1, h with
      | Cell.other, h => exact Option.noConfusion h
      | Cell.str b, h =>
        rw [specRowOf, ← regRow_eq_specRow] at h
        exact regRow_not_deny _ _ _ _ h hd

/-- `orO` with `none` on the right. -/
theorem orO_none_right {α : Type} (a : Option α) : orO a none = a := by
  cases a <;> rfl

/-- `orO` is associative. -/
theorem orO_assoc {α : Type} (a b c : Option α) :
    orO (orO a b) c = orO a (orO b c) := by
  cases a <;> rfl

/-- `firstHit` distributes over append. -/
theorem firstHit_append (k : String) (l1 l2 : List Row) :
    firstHit k (l1 ++ l2) = orO (firstHit k l1) (firstHit k l2) := by
  induction l1 with
  | nil => rfl
  | cons r rs ih =>
    simp only [List.cons_append, firstHit, List.append_eq, ih, orO_assoc]

/-- Evaluation of one successful loop iteration. -/
theorem normStep_wf (m : Attrs) (a b : String) :
    normStep m [Cell.str a, Cell.str b] =
      .ok (match specRowOf [Cell.str a, Cell.str b] with
        | some kv => kv :: m
        | none => m) := by
  simp only [normStep, specRowOf, regRow_eq_specRow]

/-- On well-formed rows, the source loop succeeds and computes exactly the
spec-side mapping. -/
theorem normRows_ok_of_wf (rows : List Row) (hw : wfRowsB rows = true) :
    ∀ m : Attrs, normRows rows m = .ok (specBuildFrom rows m) := by
  induction rows with
  | nil => intro m; rfl
  | cons r rs ih =>
    intro m
    simp only [wfRowsB, List.all_cons, Bool.and_eq_true] at hw
    obtain ⟨hr, hrs⟩ := hw
    match r, hr with
    | [c0, c1], hr =>
      match c0, hr with
      | Cell.str a, hr =>
        match c1, hr with
        | Cell.str b, hr =>
          rw [normRows, normStep_wf]
          simp only [specBuildFrom]
          exact ih (by simpa [wfRowsB] using hrs) _

/-- How one loop iteration changes a lookup. -/
theorem normStep_lookup (m : Attrs) (r : Row) (m₁ : Attrs) (k : String)
    (h : normStep m r = .ok m₁) :
    assocFind k m₁ = orO (rowHit k r) (assocFind k m) := by
  match r, h with
  | [], h => exact Except.noConfusion h
  | [_], h => exact Except.noConfusion h
  | _ :: _ :: _ :: _, h => exact Except.noConfusion h
  | [c0, c1], h =>
    match c0, h with
    | Cell.other, h => exact Except.noConfusion h
    | Cell.str a, h =>
      match c1, h with
      | Cell.other, h => exact Except.noConfusion h
      | Cell.str b, h =>
        rw [normStep] at h
        injection h with h'
        subst h'
        rw [rowHit, specRowOf, ← regRow_eq_specRow]
        cases hreg : regularizeRow (pyStrip a) (parseSeq b) with
        | none => simp [orO]
        | some kv =>
          obtain ⟨k₀, v₀⟩ := kv
          simp only [assocFind]
          by_cases hk : k₀ = k
          · simp [hk, orO]
          · simp [hk, orO]

/-- Lookups in the final dict: the last contributing row wins. -/
theorem normRows_lookup (rows : List Row) :
    ∀ (m m' : Attrs), normRows rows m = .ok m' → ∀ k : String,
      assocFind k m' = orO (firstHit k rows.reverse) (assocFind k m) := by
  induction rows with
  | nil =>
    intro m m' h k
    injection h with h'
    subst h'
    rfl
  | cons r rs ih =>
    intro m m' h k
    rw [normRows] at h
    cases hstep : normStep m r with
    | error e => rw [hstep] at h; exact Except.noConfusion h
    | ok m₁ =>
      rw [hstep] at h
      have h1 := ih m₁ m' h k
      have h2 := normStep_lookup m r m₁ k hstep
      rw [List.reverse_cons, firstHit_append, orO_assoc, h1, h2]
      simp only [firstHit, orO_none_right]

/-- The spec-side mapping never contains a denylisted key. -/
theorem specBuildFrom_deny (rows : List Row) :
    ∀ (m : Attrs) (k : String),
      (k = "eduPersonScopedAffiliation" ∨ k = "cn" ∨ k = "organizationName") →
      assocFind k m = none → assocFind k (specBuildFrom rows m) = none := by
  induction rows with
  | nil => intro m k _ hm; exact hm
  | cons r rs ih =>
    intro m k hd hm
    rw [specBuildFrom]
    cases hro : specRowOf r with
    | none => exact ih m k hd hm
    | some kv =>
      obtain ⟨k₀, v₀⟩ := kv
      refine ih _ k hd ?_
      have hne : k₀ ≠ k := by
        intro he
        exact specRowOf_not_deny r k₀ v₀ hro (he ▸ hd)
      simp [assocFind, hne, hm]

/-! ## Lemmas about the status scan (success marker) -/

/-- The attribute loop falls through when every class attribute carries a
value that does not contain the marker. -/
theorem divClassHit_false (attrs : List (String × Option String))
    (h : ∀ n v, (n, v) ∈ attrs → n = "class" →
      ∃ s, v = some s ∧ isSubstr "alert-success".data s.data = false) :
    divClassHit attrs = .ok false := by
  induction attrs with
  | nil => rfl
  | cons p rest ih =>
    obtain ⟨n, v⟩ := p
    simp only [divClassHit]
    by_cases hn : n = "class"
    · obtain ⟨s, hv, hs⟩ := h n v (by simp) hn
      subst hv
      simp only [hn, if_true, hs, if_false]
      exact ih fun n' v' hm hc => h n' v' (by simp [hm]) hc
    · simp only [hn, if_false]
      exact ih fun n' v' hm hc => h n' v' (by simp [hm]) hc

/-- The status stays put when no div tag can set it. -/
theorem statusScanAux_id (events : List StartTag)
    (h : ∀ t ∈ events, t.tag = "div" → divClassHit t.attrs = .ok false) :
    ∀ st, userInfoStatusScanAux st events = .ok st := by
  induction events with
  | nil => intro st; rfl
  | cons t ts ih =>
    intro st
    rw [userInfoStatusScanAux, statusStep]
    by_cases ht : t.tag = "div"
    · rw [if_pos ht, h t (by simp) ht]
      exact ih (fun t' hm hd => h t' (by simp [hm]) hd) st
    · rw [if_neg ht]
      exact ih (fun t' hm hd => h t' (by simp [hm]) hd) st

/-! ## Lemmas about the form-field scan -/

/-- A non-matching tag leaves the stored execution value unchanged. -/
theorem hsStep_not_exec (st : Option String) (t : StartTag)
    (h : isExecInputB t = false) : hsStep st t = st := by
  rw [hsStep, if_neg]
  exact of_decide_eq_false h

/-- A tag without any `value` attribute yields no first value pair. -/
theorem firstValueAttr_of_no_value (attrs : List (String × Option String))
    (h : hasValueAttr attrs = false) : firstValueAttr attrs = none := by
  induction attrs with
  | nil => rfl
  | cons p rest ih =>
    obtain ⟨n, v⟩ := p
    rw [hasValueAttr] at h
    rw [firstValueAttr]
    by_cases hn : n = "value"
    · rw [if_pos hn] at h; exact Bool.noConfusion h
    · rw [if_neg hn] at h
      rw [if_neg hn]
      exact ih h

/-- A tag with a `value` attribute yields a first value pair. -/
theorem firstValueAttr_of_value (attrs : List (String × Option String))
    (h : hasValueAttr attrs = true) : ∃ vv, firstValueAttr attrs = some vv := by
  induction attrs with
  | nil => exact Bool.noConfusion h
  | cons p rest ih =>
    obtain ⟨n, v⟩ := p
    rw [hasValueAttr] at h
    rw [firstValueAttr]
    by_cases hn : n = "value"
    · rw [if_pos hn]; exact ⟨v, rfl⟩
    · rw [if_neg hn] at h
      rw [if_neg hn]
      exact ih h

/-- A matching tag that carries a `value` attribute overwrites the stored
value with its own (possibly absent) one. -/
theorem hsStep_carrier (st : Option String) (t : StartTag)
    (h : carrierB t = true) : hsStep st t = valOfTag t := by
  rw [carrierB, Bool.and_eq_true] at h
  obtain ⟨he, hv⟩ := h
  obtain ⟨vv, hfv⟩ := firstValueAttr_of_value t.attrs hv
  rw [hsStep, if_pos (of_decide_eq_true he), hfv, valOfTag, hfv]

/-- A non-carrier tag leaves the stored value unchanged. -/
theorem hsStep_not_carrier (st : Option String) (t : StartTag)
    (h : carrierB t = false) : hsStep st t = st := by
  rw [carrierB, Bool.and_eq_false_iff] at h
  cases h with
  | inl he => exact hsStep_not_exec st t he
  | inr hv =>
    rw [hsStep]
    by_cases hexec : t.tag = "input" ∧ ("name", some "execution") ∈ t.attrs
    · rw [if_pos hexec, firstValueAttr_of_no_value t.attrs hv]
    · rw [if_neg hexec]

/-- A nonempty list has a last element. -/
theorem lastOf_ne_nil {α : Type} : ∀ (l : List α), l ≠ [] → ∃ a, lastOf l = some a := by
  intro l
  induction l with
  | nil => intro h; exact absurd rfl h
  | cons a t ih =>
    intro _
    match t, ih with
    | [], _ => exact ⟨a, rfl⟩
    | b :: t', ih =>
      obtain ⟨c, hc⟩ := ih (by simp)
      exact ⟨c, hc⟩

/-- The fold over `hsStep` computes the value of the last carrier tag. -/
theorem foldl_hsStep_eq (events : List StartTag) :
    ∀ st : Option String,
      events.foldl hsStep st = optValOf (lastOf (events.filter carrierB)) st := by
  induction events with
  | nil => intro st; rfl
  | cons e es ih =>
    intro st
    rw [List.foldl_cons, ih (hsStep st e), List.filter_cons]
    by_cases hc : carrierB e = true
    · rw [if_pos hc]
      cases hfe : es.filter carrierB with
      | nil =>
        simp only [optValOf, lastOf]
        exact hsStep_carrier st e hc
      | cons f fs =>
        obtain ⟨c, hcl⟩ := lastOf_ne_nil (f :: fs) (by simp)
        have hshift : lastOf (e :: f :: fs) = lastOf (f :: fs) := rfl
        rw [hshift, hcl]
        simp only [optValOf]
    · rw [if_neg hc]
      have hc' : carrierB e = false := by
        cases hcc : carrierB e with
        | true => exact absurd hcc hc
        | false => rfl
      rw [hsStep_not_carrier st e hc']

/-- With no matching `input` tag, the fold leaves the state unchanged. -/
theorem foldl_hsStep_of_no_match (events : List StartTag)
    (h : events.filter isExecInputB = []) :
    ∀ st : Option String, events.foldl hsStep st = st := by
  induction events with
  | nil => intro st; rfl
  | cons e es ih =>
    intro st
    rw [List.filter_cons] at h
    by_cases hc : isExecInputB e = true
    · rw [if_pos hc] at h
      exact List.noConfusion h
    · rw [if_neg hc] at h
      have hc' : isExecInputB e = false := by
        cases hcc : isExecInputB e with
        | true => exact absurd hcc hc
        | false => rfl
      rw [List.foldl_cons, hsStep_not_exec st e hc']
      exact ih h st

/-- With exactly one matching `input` tag, the fold returns that tag's first
value-attribute value. -/
theorem foldl_hsStep_single (events : List StartTag) (t : StartTag) (vv : Option String)
    (hf : events.filter isExecInputB = [t])
    (hv : firstValueAttr t.attrs = some vv) :
    ∀ st : Option String, events.foldl hsStep st = vv := by
  induction events with
  | nil => exact List.noConfusion hf
  | cons e es ih =>
    intro st
    rw [List.filter_cons] at hf
    by_cases hc : isExecInputB e = true
    · rw [if_pos hc] at hf
      injection hf with he hrest
      subst he
      rw [List.foldl_cons]
      have hstep : hsStep st e = vv := by
        rw [hsStep, if_pos (of_decide_eq_true hc), hv]
      rw [hstep]
      exact foldl_hsStep_of_no_match es hrest vv
    · rw [if_neg hc] at hf
      have hc' : isExecInputB e = false := by
        cases hcc : isExecInputB e with
        | true => exact absurd hcc hc
        | false => rfl
      rw [List.foldl_cons, hsStep_not_exec st e hc']
      exact ih hf st

/-! ## The two variants compute the same mapping away from `mail` rows -/

/-- On rows whose trimmed name is not `mail`, the two row loops agree. -/
theorem normRows_eq_helper (rows : List Row) (h : rows.all noMailRowB = true) :
    ∀ m : Attrs, normRows rows m = normRowsHelper rows m := by
  induction rows with
  | nil => intro m; rfl
  | cons r rs ih =>
    intro m
    simp only [List.all_cons, Bool.and_eq_true] at h
    obtain ⟨hr, hrs⟩ := h
    have hstep : normStep m r = normStepHelper m r := by
      match r, hr with
      | [], _ => rfl
      | [_], _ => rfl
      | _ :: _ :: _ :: _, _ => rfl
      | [c0, c1], hr =>
        match c0, hr with
        | Cell.other, _ => rfl
        | Cell.str a, hr =>
          match c1, hr with
          | Cell.other, _ => rfl
          | Cell.str b, hr =>
            have hmail : pyStrip a ≠ "mail" := by
              simp only [noMailRowB, Bool.not_eq_eq_eq_not, Bool.not_true] at hr
              intro hcon
              rw [hcon] at hr
              simp at hr
            rw [normStep, normStepHelper, regRowHelper_eq _ _ hmail]
    rw [normRows, normRowsHelper, ← hstep]
    cases hs : normStep m r with
    | error e => rfl
    | ok m₁ => exact ih hrs m₁

/-- On tables whose first extracted table has no `mail` row, the two variants'
`feed` post-processing agrees (given the same login status). -/
theorem feedPost_eq_helper (st : LoginStatus) (tables : List (List Row))
    (h : noMailTableB tables = true) :
    feedPost st tables = feedPostHelper st tables := by
  cases st with
  | failure => rfl
  | success =>
    cases tables with
    | nil => rfl
    | cons t0 rest =>
      cases t0 with
      | nil => rfl
      | cons hdr rows =>
        simp only [noMailTableB, List.drop_one, List.tail_cons] at h
        rw [feedPost, feedPostHelper, normRows_eq_helper rows h]

/-! ## Auxiliary evaluation helpers -/

/-- Index 1 of a list with at least two elements. -/
theorem getElem1_cons_cons {α : Type} (a b : α) (t : List α) :
    (a :: b :: t)[1]? = some b := by simp

/-- `pySplitL` version of the two-chunk lemma. -/
theorem pySplitL_two_of_occ (sep s : List Char) (hsep : sep ≠ [])
    (h : isSubstr sep s = true) : 2 ≤ (pySplitL sep s).length :=
  pySplitAux_two_of_occ sep hsep s.length s (le_refl _) h

/-- Without the marker, `split("ticket=")[1]` raises `IndexError`. -/
theorem extractTicketValue_no_marker (url : String)
    (h : isSubstr "ticket=".data url.data = false) :
    extractTicketValue url = .error .indexError := by
  rw [extractTicketValue, pySplit, pySplitL_no_occ _ _ h]
  rfl

/-! ## Claim C1 -/

/-- Claim C1 (as stated) is false: on a URL with two `ticket=` markers,
`get_ticket` returns the segment between the first and second marker, not the
whole substring following the first one; and on a URL with no marker it fails
with an `IndexError`, not `ProtocolError("ticket marker not found")` (no such
error exists in the code). -/
theorem claim_C1_counterexample :
    get_ticket ⟨302, true, some "u", [], []⟩
        ⟨200, false, none, [("ssosaf", "S")],
          [⟨"input", [("name", some "execution"), ("value", some "E")]⟩]⟩
        ⟨302, true, some "s?ticket=A&u=ticket=B", [], []⟩ =
      .ok ⟨"A&u=", "s?ticket=A&u=ticket=B"⟩ ∧
    ("A&u=" : String) ≠ "A&u=ticket=B" ∧
    get_ticket ⟨302, true, some "u", [], []⟩
        ⟨200, false, none, [("ssosaf", "S")],
          [⟨"input", [("name", some "execution"), ("value", some "E")]⟩]⟩
        ⟨302, true, some "s?park", [], []⟩ =
      .error .indexError := by
  refine ⟨rfl, by decide, rfl⟩

/-- Claim C1, amended: the ticket value is the segment of the ticketed URL
strictly between the first occurrence of `ticket=` and the next occurrence
(or the end of the URL); when the URL contains no occurrence of `ticket=`,
the operation fails with an uncaught `IndexError` (not a protocol error). -/
theorem claim_C1 :
    (∀ url : String, isSubstr "ticket=".data url.data = false →
        extractTicketValue url = .error .indexError) ∧
    (∀ (url : String) (pre post : List Char),
        url.data = pre ++ "ticket=".data ++ post →
        (∀ i, i < pre.length → prefixB "ticket=".data (url.data.drop i) = false) →
        isSubstr "ticket=".data post = false →
        extractTicketValue url = .ok (String.mk post)) ∧
    (∀ (url : String) (pre mid rest : List Char),
        url.data = pre ++ "ticket=".data ++ (mid ++ "ticket=".data ++ rest) →
        (∀ i, i < pre.length → prefixB "ticket=".data (url.data.drop i) = false) →
        (∀ j, j < mid.length →
          prefixB "ticket=".data ((mid ++ "ticket=".data ++ rest).drop j) = false) →
        extractTicketValue url = .ok (String.mk mid)) ∧
    (∀ (serviceResp hsResp loginResp : HTTPResponse) (loc url : String)
        (hs : InitialHandshakeData),
        (serviceResp.status_code = 200 ∨ serviceResp.status_code = 302) →
        serviceResp.is_redirect = true →
        serviceResp.location = some loc →
        loc ≠ "" →
        _get_initial_handshake hsResp = .ok hs →
        loginResp.is_redirect = true →
        loginResp.location = some url →
        get_ticket serviceResp hsResp loginResp =
          (match extractTicketValue url with
            | .error e => .error e
            | .ok t => .ok ⟨t, url⟩)) := by
  have hsep : ("ticket=".data : List Char) ≠ [] := by decide
  refine ⟨fun url h => extractTicketValue_no_marker url h, ?_, ?_, ?_⟩
  · intro url pre post heq hocc hpost
    have hocc' : ∀ i, i < pre.length →
        prefixB "ticket=".data ((pre ++ "ticket=".data ++ post).drop i) = false := by
      intro i hi
      rw [← heq]
      exact hocc i hi
    have h2 : pySplitL "ticket=".data url.data = pre :: pySplitL "ticket=".data post := by
      rw [heq]
      exact pySplitL_cut _ hsep pre post hocc'
    rw [extractTicketValue, pySplit, h2, pySplitL_no_occ _ _ hpost]
    simp only [List.map_cons, List.map_nil, getElem1_cons_cons]
  · intro url pre mid rest heq hocc1 hocc2
    have hocc' : ∀ i, i < pre.length →
        prefixB "ticket=".data
          ((pre ++ "ticket=".data ++ (mid ++ "ticket=".data ++ rest)).drop i) = false := by
      intro i hi
      rw [← heq]
      exact hocc1 i hi
    have h2 : pySplitL "ticket=".data url.data =
        pre :: pySplitL "ticket=".data (mid ++ "ticket=".data ++ rest) := by
      rw [heq]
      exact pySplitL_cut _ hsep pre _ hocc'
    have h3 : pySplitL "ticket=".data (mid ++ "ticket=".data ++ rest) =
        mid :: pySplitL "ticket=".data rest :=
      pySplitL_cut _ hsep mid rest hocc2
    rw [extractTicketValue, pySplit, h2, h3]
    simp only [List.map_cons, getElem1_cons_cons]
  · intro sR hR lR loc url hs h200or hred hloc hlocne hhs hlred hlloc
    rcases h200or with h200 | h302
    · simp [get_ticket, h200, hred, hloc, hlocne, hhs, hlred, hlloc]
    · simp [get_ticket, h302, hred, hloc, hlocne, hhs, hlred, hlloc]

/-- Concrete instances of the amended claim C1. -/
theorem claim_C1_witness :
    extractTicketValue "no-marker-here" = .error .indexError ∧
    extractTicketValue "s?ticket=T" = .ok "T" ∧
    extractTicketValue "s?ticket=A&ticket=B" = .ok "A&" ∧
    get_ticket ⟨302, true, some "u", [], []⟩
        ⟨200, false, none, [("ssosaf", "S")],
          [⟨"input", [("name", some "execution"), ("value", some "E")]⟩]⟩
        ⟨302, true, some "s?ticket=T", [], []⟩ =
      (match extractTicketValue "s?ticket=T" with
        | .error e => .error e
        | .ok t => .ok ⟨t, "s?ticket=T"⟩) := by
  refine ⟨claim_C1.1 "no-marker-here" (by decide), ?_, ?_, ?_⟩
  · exact claim_C1.2.1 "s?ticket=T" "s?".data "T".data (by decide) (by decide) (by decide)
  · exact claim_C1.2.2.1 "s?ticket=A&ticket=B" "s?".data "A&".data "B".data
      (by decide) (by decide) (by decide)
  · exact claim_C1.2.2.2 _ _ _ "u" "s?ticket=T" ⟨"S", "E"⟩
      (Or.inr rfl) rfl rfl (by decide) rfl rfl rfl

/-! ## Claim C2 -/

/-- Claim C2 (as stated) is false: `lstrip("[")`/`rstrip("]")` strip every
leading `[` and every trailing `]`, not exactly one of each; on `"[[x]]"` the
normalizer yields `["x"]`, while stripping exactly one bracket per side would
yield `["[x]"]`. -/
theorem claim_C2_counterexample :
    parseSeq "[[x]]" = ["x"] ∧
    stripOneParse "[[x]]" = ["[x]"] ∧
    (["x"] : List String) ≠ ["[x]"] := by
  refine ⟨by decide, by decide, by decide⟩

/-- Claim C2, amended: the raw value is parsed by stripping every leading `[`
and every trailing `]` and then splitting on `", "` — a value with `n`
leading `[` and `m` trailing `]` around a core that starts with no `[` and
ends with no `]` loses all of them. -/
theorem claim_C2 :
    ∀ (n m : Nat) (core : List Char),
      core.head? ≠ some '[' → core.getLast? ≠ some ']' →
      parseSeq (String.mk (List.replicate n '[' ++ core ++ List.replicate m ']')) =
        pySplit (String.mk core) ", " := by
  intro n m core hh hl
  have e1 : pyLstrip (String.mk (List.replicate n '[' ++ core ++ List.replicate m ']')) "[" =
      String.mk (core ++ List.replicate m ']') := by
    rw [pyLstrip]
    congr 1
    show (List.replicate n '[' ++ core ++ List.replicate m ']').dropWhile
        (fun c => ("[" : String).data.contains c) = core ++ List.replicate m ']'
    rw [List.append_assoc,
      dropWhile_replicate_append _ '[' (by decide)]
    apply dropWhile_head_false
    intro c hc
    cases core with
    | nil =>
      simp only [List.nil_append] at hc
      cases m with
      | zero => exact Option.noConfusion hc
      | succ m' =>
        rw [List.replicate_succ] at hc
        injection hc with hc'
        subst hc'
        decide
    | cons c0 rest =>
      simp only [List.cons_append, List.head?_cons] at hc
      injection hc with hc'
      rw [← hc']
      have hne : c0 ≠ '[' := by
        intro hcon
        exact hh (by simp [hcon])
      simp [List.contains, hne]
  have e2 : pyRstrip (String.mk (core ++ List.replicate m ']')) "]" = String.mk core := by
    rw [pyRstrip]
    congr 1
    show ((core ++ List.replicate m ']').reverse.dropWhile
        (fun c => ("]" : String).data.contains c)).reverse = core
    rw [List.reverse_append, List.reverse_replicate,
      dropWhile_replicate_append _ ']' (by decide)]
    rw [dropWhile_head_false]
    · exact List.reverse_reverse core
    · intro c hc
      rw [List.head?_reverse] at hc
      have hne : c ≠ ']' := by
        intro hcon
        exact hl (hcon ▸ hc)
      simp [List.contains, hne]
  rw [parseSeq, e1, e2]

/-- Concrete instance of the amended claim C2. -/
theorem claim_C2_witness :
    parseSeq (String.mk (List.replicate 2 '[' ++ "x".data ++ List.replicate 2 ']')) =
      pySplit (String.mk "x".data) ", " ∧
    pySplit (String.mk "x".data) ", " = ["x"] := by
  exact ⟨claim_C2 2 2 "x".data (by decide) (by decide), by decide⟩

/-! ## Claim C4 -/

/-- Claim C4 (as stated) is false: with a redirect URL ending exactly in
`ticket=`, `get_ticket` returns a `ServiceTicket` whose value is the empty
string instead of failing with a protocol error. -/
theorem claim_C4_counterexample :
    get_ticket ⟨302, true, some "u", [], []⟩
        ⟨200, false, none, [("ssosaf", "S")],
          [⟨"input", [("name", some "execution"), ("value", some "E")]⟩]⟩
        ⟨302, true, some "s?ticket=", [], []⟩ =
      .ok ⟨"", "s?ticket="⟩ := rfl

/-- Claim C4, amended: when the ticketed URL contains `ticket=` the extraction
always succeeds — possibly with an empty (or otherwise arbitrary) value — and
when the marker is absent it fails with an `IndexError`, which is neither a
protocol error nor an empty-valued ticket. -/
theorem claim_C4 :
    ∀ url : String,
      (isSubstr "ticket=".data url.data = true →
        ∃ t : String, extractTicketValue url = .ok t) ∧
      (isSubstr "ticket=".data url.data = false →
        extractTicketValue url = .error .indexError) := by
  intro url
  constructor
  · intro h
    have h2 := pySplitL_two_of_occ "ticket=".data url.data (by decide) h
    cases hm : pySplitL "ticket=".data url.data with
    | nil => rw [hm] at h2; simp at h2
    | cons a tl =>
      cases tl with
      | nil => rw [hm] at h2; simp at h2
      | cons b t =>
        refine ⟨String.mk b, ?_⟩
        rw [extractTicketValue, pySplit, hm]
        simp only [List.map_cons, getElem1_cons_cons]
  · exact extractTicketValue_no_marker url

/-- Concrete instances of the amended claim C4. -/
theorem claim_C4_witness :
    (∃ t : String, extractTicketValue "s?ticket=" = .ok t) ∧
    extractTicketValue "s?park" = .error .indexError := by
  exact ⟨(claim_C4 "s?ticket=").1 (by decide), (claim_C4 "s?park").2 (by decide)⟩

/-! ## Claim C3 -/

/-- Claim C3 (as stated) is false: even on a body where both variants' success
checks agree (a div whose class is exactly `alert alert-success`), the two
variants disagree on a well-formed `mail` row — uc_sso renames it to `email`,
while uc_sso_helper has no `mail` branch and passes the raw key through. -/
theorem claim_C3_counterexample :
    userInfoStatusScan [⟨"div", [("class", some "alert alert-success")]⟩] =
      .ok .success ∧
    userInfoStatusScanHelper [⟨"div", [("class", some "alert alert-success")]⟩] =
      .success ∧
    feedPost .success [[[Cell.str "h", Cell.str "h"], [Cell.str "mail", Cell.str "[a@x.com]"]]] =
      .ok (some [("email", AttrVal.single "a@x.com")]) ∧
    feedPostHelper .success
        [[[Cell.str "h", Cell.str "h"], [Cell.str "mail", Cell.str "[a@x.com]"]]] =
      .ok (some [("mail", AttrVal.single "a@x.com")]) ∧
    assocFind "email" [("email", AttrVal.single "a@x.com")] = some (.single "a@x.com") ∧
    assocFind "email" [("mail", AttrVal.single "a@x.com")] = none := by
  refine ⟨rfl, rfl, by decide, by decide, by decide, by decide⟩

/-- Claim C3, amended: besides the exact-versus-substring class match, the two
variants also diverge on the `mail` rename; on every table whose first
extracted table has no well-formed `mail` row, and for either agreed login
status, the two variants' feed post-processing produces identical results. -/
theorem claim_C3 :
    ∀ (st : LoginStatus) (tables : List (List Row)),
      noMailTableB tables = true → feedPost st tables = feedPostHelper st tables :=
  feedPost_eq_helper

/-- Concrete instance of the amended claim C3. -/
theorem claim_C3_witness :
    feedPost .success [[[Cell.str "h", Cell.str "h"], [Cell.str "uid", Cell.str "[u]"]]] =
      feedPostHelper .success
        [[[Cell.str "h", Cell.str "h"], [Cell.str "uid", Cell.str "[u]"]]] ∧
    feedPost .success [[[Cell.str "h", Cell.str "h"], [Cell.str "uid", Cell.str "[u]"]]] =
      .ok (some [("username", AttrVal.single "u")]) := by
  exact ⟨claim_C3 .success _ (by decide), by decide⟩

/-! ## Claim C5 -/

/-- Claim C5: on a 200 response whose body carries the success marker and a
well-formed attribute table, `get_user_info` returns exactly the mapping
described by the spec's section 4.3 table (rename table as data, denylist,
blank-fallback drop), and denylisted keys never occur in it. -/
theorem claim_C5 :
    ∀ (events : List StartTag) (hdr : Row) (rows : List Row) (rest : List (List Row)),
      userInfoStatusScan events = .ok .success →
      wfRowsB rows = true →
      get_user_info 200 events ((hdr :: rows) :: rest) = .ok (some (specBuild rows)) ∧
      (∀ k : String,
        k = "eduPersonScopedAffiliation" ∨ k = "cn" ∨ k = "organizationName" →
        assocFind k (specBuild rows) = none) := by
  intro events hdr rows rest hscan hwf
  constructor
  · simp [get_user_info, hscan, feedPost, specBuild, normRows_ok_of_wf rows hwf []]
  · intro k hk
    exact specBuildFrom_deny rows [] k hk rfl

/-- Concrete instance of claim C5. -/
theorem claim_C5_witness :
    get_user_info 200 [⟨"div", [("class", some "alert alert-success")]⟩]
        [[[Cell.str "Attribute", Cell.str "Value"],
          [Cell.str " sn ", Cell.str "[Doe]"],
          [Cell.str "carlicense", Cell.str "[000123456]"],
          [Cell.str "cn", Cell.str "[x]"],
          [Cell.str "note", Cell.str "[ ]"],
          [Cell.str "mailAlternateAddress", Cell.str "[a@x.com, b@x.com]"]]] =
      .ok (some (specBuild
        [[Cell.str " sn ", Cell.str "[Doe]"],
         [Cell.str "carlicense", Cell.str "[000123456]"],
         [Cell.str "cn", Cell.str "[x]"],
         [Cell.str "note", Cell.str "[ ]"],
         [Cell.str "mailAlternateAddress", Cell.str "[a@x.com, b@x.com]"]])) ∧
    specBuild
        [[Cell.str " sn ", Cell.str "[Doe]"],
         [Cell.str "carlicense", Cell.str "[000123456]"],
         [Cell.str "cn", Cell.str "[x]"],
         [Cell.str "note", Cell.str "[ ]"],
         [Cell.str "mailAlternateAddress", Cell.str "[a@x.com, b@x.com]"]] =
      [("alternate_emails", AttrVal.seq ["a@x.com", "b@x.com"]),
       ("run", AttrVal.single "123456"),
       ("first_last_name", AttrVal.single "Doe")] ∧
    assocFind "cn" (specBuild
        [[Cell.str " sn ", Cell.str "[Doe]"],
         [Cell.str "carlicense", Cell.str "[000123456]"],
         [Cell.str "cn", Cell.str "[x]"],
         [Cell.str "note", Cell.str "[ ]"],
         [Cell.str "mailAlternateAddress", Cell.str "[a@x.com, b@x.com]"]]) = none := by
  refine ⟨?_, by decide, ?_⟩
  · exact (claim_C5 [⟨"div", [("class", some "alert alert-success")]⟩]
      [Cell.str "Attribute", Cell.str "Value"]
      [[Cell.str " sn ", Cell.str "[Doe]"],
         [Cell.str "carlicense", Cell.str "[000123456]"],
         [Cell.str "cn", Cell.str "[x]"],
         [Cell.str "note", Cell.str "[ ]"],
         [Cell.str "mailAlternateAddress", Cell.str "[a@x.com, b@x.com]"]] [] rfl (by decide)).1
  · exact (claim_C5 [⟨"div", [("class", some "alert alert-success")]⟩]
      [Cell.str "Attribute", Cell.str "Value"]
      [[Cell.str " sn ", Cell.str "[Doe]"],
         [Cell.str "carlicense", Cell.str "[000123456]"],
         [Cell.str "cn", Cell.str "[x]"],
         [Cell.str "note", Cell.str "[ ]"],
         [Cell.str "mailAlternateAddress", Cell.str "[a@x.com, b@x.com]"]] [] rfl (by decide)).2 "cn" (by simp)

/-! ## Claim C6 -/

/-- Claim C6 concerns a genuine slip in the code: `assert self.tables[0]`
cannot fire on a success page with no table at all — the subscript raises
`IndexError` before the assertion (whose own message says "attribute table
not found") is evaluated.  The two row-shape checks do fail with the
assertion errors the claim describes. -/
theorem claim_C6 :
    get_user_info 200 [⟨"div", [("class", some "alert alert-success")]⟩] [] =
      .error .indexError ∧
    get_user_info 200 [⟨"div", [("class", some "alert alert-success")]⟩]
        [[[Cell.str "h", Cell.str "h"], [Cell.str "lonely"]]] =
      .error (.assertionError "Abnormal row length found in attribute table.") ∧
    get_user_info 200 [⟨"div", [("class", some "alert alert-success")]⟩]
        [[[Cell.str "h", Cell.str "h"], [Cell.other, Cell.str "v"]]] =
      .error (.assertionError "Abnormal row name found in attribute table.") := by
  refine ⟨rfl, rfl, rfl⟩

/-! ## Claim C7 -/

/-- Claim C7: with both the `ssosaf` cookie and a unique `execution` input
field (carrying a value) present, the handshake returns exactly those two
values; with the cookie missing, or with no `execution` input present, it
fails with the corresponding `ValueError` (the spec's `HandshakeError`). -/
theorem claim_C7 :
    (∀ (resp : HTTPResponse) (s : String) (t : StartTag) (v : String),
        assocFind "ssosaf" resp.cookies = some s →
        resp.bodyTags.filter isExecInputB = [t] →
        firstValueAttr t.attrs = some (some v) →
        _get_initial_handshake resp = .ok ⟨s, v⟩) ∧
    (∀ resp : HTTPResponse,
        assocFind "ssosaf" resp.cookies = none →
        _get_initial_handshake resp =
          .error (.valueError "Could not find ssosaf cookie.")) ∧
    (∀ (resp : HTTPResponse) (s : String),
        assocFind "ssosaf" resp.cookies = some s →
        resp.bodyTags.filter isExecInputB = [] →
        _get_initial_handshake resp =
          .error (.valueError "Could not find execution parameter in response.")) := by
  refine ⟨?_, ?_, ?_⟩
  · intro resp s t v hcookie hfilter hfv
    have hscan : handshakeFieldScan resp.bodyTags = some v := by
      rw [handshakeFieldScan]
      exact foldl_hsStep_single resp.bodyTags t (some v) hfilter hfv none
    rw [_get_initial_handshake, hcookie, hscan]
  · intro resp hcookie
    rw [_get_initial_handshake, hcookie]
  · intro resp s hcookie hfilter
    have hscan : handshakeFieldScan resp.bodyTags = none := by
      rw [handshakeFieldScan]
      exact foldl_hsStep_of_no_match resp.bodyTags hfilter none
    rw [_get_initial_handshake, hcookie, hscan]

/-- Concrete instances of claim C7. -/
theorem claim_C7_witness :
    _get_initial_handshake
        ⟨200, false, none, [("ssosaf", "S")],
          [⟨"input", [("name", some "execution"), ("value", some "E")]⟩]⟩ =
      .ok ⟨"S", "E"⟩ ∧
    _get_initial_handshake ⟨200, false, none, [],
        [⟨"input", [("name", some "execution"), ("value", some "E")]⟩]⟩ =
      .error (.valueError "Could not find ssosaf cookie.") ∧
    _get_initial_handshake ⟨200, false, none, [("ssosaf", "S")],
        [⟨"input", [("name", some "other")]⟩]⟩ =
      .error (.valueError "Could not find execution parameter in response.") := by
  refine ⟨claim_C7.1 _ "S" ⟨"input", [("name", some "execution"), ("value", some "E")]⟩ "E"
      (by decide) (by decide) (by decide),
    claim_C7.2.1 _ (by decide),
    claim_C7.2.2 _ "S" (by decide) (by decide)⟩

/-! ## Claim C8 -/

/-- Claim C8 (as stated) is false on one corner: a body whose only div has a
valueless `class` attribute satisfies "no div class contains alert-success",
yet the scan crashes with a `TypeError` (`"alert-success" in None`) instead
of `Login` failing with `LoginFailedError`. -/
theorem claim_C8_counterexample :
    noSuccessDivB [⟨"div", [("class", none)]⟩] = true ∧
    get_user_info 200 [⟨"div", [("class", none)]⟩] [] = .error .typeError ∧
    .error .typeError ≠
      (.error (.loginFailed "Invalid credentials.") : Except PyErr (Option Attrs)) := by
  refine ⟨by decide, rfl, by decide⟩

/-- Claim C8, amended: on every 200 body in which no div class value contains
`alert-success` and every div class attribute actually carries a value, login
fails with `LoginFailed("Invalid credentials.")`, regardless of the tables. -/
theorem claim_C8 :
    ∀ (events : List StartTag) (tables : List (List Row)),
      noSuccessDivB events = true →
      allClassValuedB events = true →
      get_user_info 200 events tables =
        .error (.loginFailed "Invalid credentials.") := by
  intro events tables h1 h2
  have hdiv : ∀ t ∈ events, t.tag = "div" → divClassHit t.attrs = .ok false := by
    intro t ht htag
    apply divClassHit_false
    intro nn vv hm hcl
    have h1' := (List.all_eq_true.mp h1) t ht
    have h2' := (List.all_eq_true.mp h2) t ht
    rw [htag] at h1' h2'
    simp only [beq_self_eq_true, Bool.not_true, Bool.false_or] at h1' h2'
    have hA := (List.all_eq_true.mp h1') (nn, vv) hm
    have hB := (List.all_eq_true.mp h2') (nn, vv) hm
    simp only [hcl, beq_self_eq_true, Bool.not_true, Bool.false_or] at hA hB
    cases vv with
    | none => exact Bool.noConfusion hB
    | some s =>
      refine ⟨s, rfl, ?_⟩
      simpa using hA
  have hscan : userInfoStatusScan events = .ok .failure := by
    rw [userInfoStatusScan]
    exact statusScanAux_id events hdiv .failure
  rw [get_user_info, if_neg (by simp), hscan]
  rfl

/-- Concrete instance of the amended claim C8. -/
theorem claim_C8_witness :
    get_user_info 200
        [⟨"div", [("class", some "alert alert-danger")]⟩,
          ⟨"table", []⟩]
        [[[Cell.str "h", Cell.str "h"], [Cell.str "uid", Cell.str "[u]"]]] =
      .error (.loginFailed "Invalid credentials.") :=
  claim_C8
    [⟨"div", [("class", some "alert alert-danger")]⟩, ⟨"table", []⟩]
    [[[Cell.str "h", Cell.str "h"], [Cell.str "uid", Cell.str "[u]"]]]
    (by decide) (by decide)

/-! ## Claim C9 -/

/-- Claim C9: duplicate rows do not raise — on well-formed rows the loop
always succeeds — and every lookup in its result is the value derived from
the last contributing row in table order, earlier values being overwritten. -/
theorem claim_C9 :
    (∀ (rows : List Row) (m : Attrs), wfRowsB rows = true →
        ∃ m' : Attrs, normRows rows m = .ok m') ∧
    (∀ (rows : List Row) (m m' : Attrs) (k : String), normRows rows m = .ok m' →
        assocFind k m' = orO (lastWins k rows) (assocFind k m)) := by
  constructor
  · intro rows m hw
    exact ⟨specBuildFrom rows m, normRows_ok_of_wf rows hw m⟩
  · intro rows m m' k h
    exact normRows_lookup rows m m' h k

/-- Concrete instance of claim C9: a duplicated `uid` row raises nothing and
the second row's value wins. -/
theorem claim_C9_witness :
    (∃ m', normRows [[Cell.str "uid", Cell.str "[u1]"],
        [Cell.str "uid", Cell.str "[u2]"]] [] = .ok m') ∧
    assocFind "username"
        [("username", AttrVal.single "u2"), ("username", AttrVal.single "u1")] =
      orO (lastWins "username"
          [[Cell.str "uid", Cell.str "[u1]"], [Cell.str "uid", Cell.str "[u2]"]])
        (assocFind "username" ([] : Attrs)) ∧
    lastWins "username"
        [[Cell.str "uid", Cell.str "[u1]"], [Cell.str "uid", Cell.str "[u2]"]] =
      some (AttrVal.single "u2") := by
  refine ⟨claim_C9.1 _ [] (by decide),
    claim_C9.2 [[Cell.str "uid", Cell.str "[u1]"], [Cell.str "uid", Cell.str "[u2]"]]
      [] [("username", AttrVal.single "u2"), ("username", AttrVal.single "u1")]
      "username" (by decide),
    by decide⟩

/-! ## Claim C10 -/

/-- Claim C10: the form-field extractor returns the value attribute of the
last matching `input` tag that carries a `value` attribute (absent when that
attribute is valueless), and a matching tag without any `value` attribute
leaves the previously extracted value unchanged. -/
theorem claim_C10 :
    (∀ events : List StartTag, handshakeFieldScan events = lastExecValue events) ∧
    (∀ (st : Option String) (t : StartTag), isExecInputB t = true →
        hasValueAttr t.attrs = false → hsStep st t = st) := by
  constructor
  · intro events
    rw [handshakeFieldScan, lastExecValue]
    exact foldl_hsStep_eq events none
  · intro st t he hv
    apply hsStep_not_carrier
    rw [carrierB, he, hv]
    rfl

/-- Concrete instances of claim C10: the second tag's value wins, and a
matching tag without a `value` attribute changes nothing. -/
theorem claim_C10_witness :
    handshakeFieldScan
        [⟨"input", [("name", some "execution"), ("value", some "A")]⟩,
          ⟨"input", [("name", some "execution"), ("value", some "B")]⟩] =
      lastExecValue
        [⟨"input", [("name", some "execution"), ("value", some "A")]⟩,
          ⟨"input", [("name", some "execution"), ("value", some "B")]⟩] ∧
    lastExecValue
        [⟨"input", [("name", some "execution"), ("value", some "A")]⟩,
          ⟨"input", [("name", some "execution"), ("value", some "B")]⟩] =
      some "B" ∧
    hsStep (some "A") ⟨"input", [("name", some "execution")]⟩ = some "A" := by
  refine ⟨claim_C10.1 _, by decide,
    claim_C10.2 (some "A") ⟨"input", [("name", some "execution")]⟩
      (by decide) (by decide)⟩
